import Mathlib

/-!
Shallow embedding of the `server` package of `tsubus/tss-sdk-go`
(`src/server/server.go`) together with theorems checking the repository's
specification against it.

The HTTP layer is modelled by oracles: the outcome of `handleResponse`
applied to the token-endpoint call, respectively the resource call, is
passed in as an `Except` value, and every function returns the list of
HTTP requests it issued alongside its result.
-/

namespace TssSdk

/-- Characters trimmed by `strings.Trim(s, "/")`. -/
def isSlash (c : Char) : Bool := c = '/'

/-- List-level embedding of Go `strings.Trim(s, "/")`: drop leading and
trailing slash characters. -/
def trimList (l : List Char) : List Char :=
  ((l.dropWhile isSlash).reverse.dropWhile isSlash).reverse

/-- Embedding of `strings.Trim(s, "/")`. -/
def trimSlashes (s : String) : String := ⟨trimList s.data⟩

/-- Go constant `defaultAPIPathURI`. -/
def defaultAPIPathURI : String := "/api/v1"

/-- Go constant `defaultTokenPathURI`. -/
def defaultTokenPathURI : String := "/oauth2/token"

/-- Go constant `defaultTLD`. -/
def defaultTLD : String := "com"

/-- Go `UserCredential`: username and password or access token used to
authenticate to the REST API. -/
structure UserCredential where
  AccessToken : String
  Domain : String
  Username : String
  Password : String

/-- Go `LogLevel int`. -/
abbrev LogLevel := Int

def LevelTrace : LogLevel := -2

def LevelDebug : LogLevel := -1

def LevelInfo : LogLevel := 0

def LevelWarn : LogLevel := 1

def LevelError : LogLevel := 2

/-- Go `Configuration`. The `TLSClientConfig` field only mutates the
process-wide HTTP transport in `New` and has no effect on any request the
claims mention, so it is not modelled. -/
structure Configuration where
  Credentials : UserCredential
  ServerURL : String
  TLD : String
  Tenant : String
  apiPathURI : String
  tokenPathURI : String
  LogLevel : LogLevel

/-- Go `Server` embeds `Configuration` and adds nothing. -/
abbrev Server := Configuration

/-- Instantiation of Go `cloudBaseURLTemplate = "https://%s.secretservercloud.%s/"`
at a tenant and TLD. -/
def cloudBaseURL (tenant tld : String) : String :=
  "https://" ++ tenant ++ ".secretservercloud." ++ tld ++ "/"

/-- Go `New`. The zerolog global log level and the process-wide TLS
transport mutation are side effects with no bearing on the returned
server and are not modelled. -/
def New (config : Configuration) : Except String Server :=
  if (config.ServerURL = "" ∧ config.Tenant = "") ∨
      (config.ServerURL ≠ "" ∧ config.Tenant ≠ "") then
    .error "either ServerURL or Tenant must be set"
  else
    .ok { config with
          TLD := if config.TLD = "" then defaultTLD else config.TLD,
          apiPathURI :=
            trimSlashes (if config.apiPathURI = "" then defaultAPIPathURI
              else config.apiPathURI),
          tokenPathURI :=
            trimSlashes (if config.tokenPathURI = "" then defaultTokenPathURI
              else config.tokenPathURI) }

/-- The `baseURL` local of Go `urlFor`: the server URL when set, otherwise
the cloud URL built from tenant and TLD. -/
def baseURLOf (s : Server) : String :=
  if s.ServerURL = "" then cloudBaseURL s.Tenant s.TLD else s.ServerURL

/-- Go `urlFor`: the URL for the given resource and path. -/
def urlFor (s : Server) (resource path : String) : String :=
  if resource = "token" then
    trimSlashes (baseURLOf s) ++ "/" ++ trimSlashes s.tokenPathURI
  else
    trimSlashes (baseURLOf s) ++ "/" ++ trimSlashes s.apiPathURI ++ "/" ++
      trimSlashes resource ++ "/" ++ trimSlashes path

/-- A JSON document, the shape `encoding/json` sees after lexing a
syntactically valid body. Numbers are modelled as integers; no claim
involves fractional numbers. -/
inductive Json where
  | null : Json
  | bool : Bool → Json
  | num : Int → Json
  | str : String → Json
  | arr : List Json → Json
  | obj : List (String × Json) → Json

/-- The anonymous grant struct inside Go `getAccessToken`. -/
structure Grant where
  AccessToken : String
  RefreshToken : String
  TokenType : String
  ExpiresIn : Int

/-- ASCII lowercasing of one character. -/
def lowerChar (c : Char) : Char :=
  if c.isUpper then Char.ofNat (c.toNat + 32) else c

/-- Case-insensitive key comparison, the matching rule `encoding/json`
applies between a JSON key and a struct tag. -/
def keyEqFold (a b : String) : Bool :=
  a.data.map lowerChar == b.data.map lowerChar

/-- Field lookup as `encoding/json` does it for a struct tag: matching is
case-insensitive. Duplicate keys matching the same tag are not modelled
(Go keeps the last; no claim involves duplicates). -/
def lookupField (fields : List (String × Json)) (tag : String) : Option Json :=
  (fields.find? (fun f => keyEqFold f.fst tag)).map (fun f => f.snd)

/-- Decoding one tagged `string` struct field: an absent or null key leaves
the zero value, a JSON string is taken verbatim, anything else is a Go
`UnmarshalTypeError`. -/
def decodeStringField (fields : List (String × Json)) (tag : String) :
    Except String String :=
  match lookupField fields tag with
  | none => .ok ""
  | some (Json.str v) => .ok v
  | some Json.null => .ok ""
  | some _ => .error ("cannot unmarshal JSON value into string field " ++ tag)

/-- Decoding one tagged `int` struct field, as `decodeStringField`. -/
def decodeIntField (fields : List (String × Json)) (tag : String) :
    Except String Int :=
  match lookupField fields tag with
  | none => .ok 0
  | some (Json.num v) => .ok v
  | some Json.null => .ok 0
  | some _ => .error ("cannot unmarshal JSON value into int field " ++ tag)

/-- Go `json.Unmarshal(data, &grant)`: `none` stands for a body that is not
syntactically valid JSON; a JSON `null` leaves the zero struct; an object
decodes field by field; any other JSON value is a type error. -/
def unmarshalGrant : Option Json → Except String Grant
  | none => .error "invalid JSON"
  | some Json.null => .ok ⟨"", "", "", 0⟩
  | some (Json.obj fields) =>
    match decodeStringField fields "access_token",
        decodeStringField fields "refresh_token",
        decodeStringField fields "token_type",
        decodeIntField fields "expires_in" with
    | .ok a, .ok r, .ok t, .ok e => .ok ⟨a, r, t, e⟩
    | .error e, _, _, _ => .error e
    | _, .error e, _, _ => .error e
    | _, _, .error e, _ => .error e
    | _, _, _, .error e => .error e
  | some _ => .error "cannot unmarshal JSON value into grant"

/-- One part written by `multipart.Writer.CreateFormFile` plus `io.Copy`. -/
structure FilePart where
  fieldname : String
  filename : String
  content : String

/-- The body of an outgoing request. The url-encoded form body of the token
request is modelled as its key/value pairs, the multipart body as its list
of file parts. -/
inductive RequestBody where
  | raw : String → RequestBody
  | form : List (String × String) → RequestBody
  | multipart : List FilePart → RequestBody

/-- An outgoing HTTP request as observed on the wire. -/
structure HttpRequest where
  method : String
  url : String
  headers : List (String × String)
  body : RequestBody

/-- The `url.Values` built by Go `getAccessToken`: username, password and
grant_type always; domain only when the credential's domain is non-empty. -/
def grantFormValues (c : UserCredential) : List (String × String) :=
  [("username", c.Username), ("password", c.Password),
    ("grant_type", "password")] ++
    (if c.Domain ≠ "" then [("domain", c.Domain)] else [])

/-- The POST issued by Go `getAccessToken` via `http.Post`. -/
def tokenRequest (s : Server) : HttpRequest :=
  { method := "POST"
    url := urlFor s "token" ""
    headers := [("Content-Type", "application/x-www-form-urlencoded")]
    body := .form (grantFormValues s.Credentials) }

/-- Go `getAccessToken`. `tokenResp` is the oracle for
`handleResponse(http.Post(...))`: an error, or the response body as lexed
JSON (`none` for a syntactically invalid body). The second component lists
the HTTP requests issued. -/
def getAccessToken (s : Server) (tokenResp : Except String (Option Json)) :
    Except String String × List HttpRequest :=
  if s.Credentials.AccessToken ≠ "" then
    (.ok s.Credentials.AccessToken, [])
  else
    match tokenResp with
    | .error e => (.error e, [tokenRequest s])
    | .ok data =>
      match unmarshalGrant data with
      | .error e => (.error e, [tokenRequest s])
      | .ok grant => (.ok grant.AccessToken, [tokenRequest s])

/-- Go `accessResource`. `input` is the oracle for the optional payload and
its `json.Marshal` outcome: `none` for a nil input, `some (.error e)` for a
payload whose serialization fails, `some (.ok data)` for the serialized
bytes. `doResp` is the oracle for `handleResponse((&http.Client\x7b\x7d).Do(req))`. -/
def accessResource (s : Server) (method resource path : String)
    (input : Option (Except String String))
    (tokenResp : Except String (Option Json))
    (doResp : Except String String) :
    Except String String × List HttpRequest :=
  if ¬ (resource = "secrets" ∨ resource = "secret-templates") then
    (.error "unknown resource", [])
  else
    match input with
    | some (.error e) => (.error e, [])
    | _ =>
      let body := match input with
        | some (.ok data) => data
        | _ => ""
      match getAccessToken s tokenResp with
      | (.error e, calls) => (.error e, calls)
      | (.ok accessToken, calls) =>
        let req : HttpRequest :=
          { method := method
            url := urlFor s resource path
            headers :=
              ("Authorization", "Bearer " ++ accessToken) ::
                (if method = "POST" ∨ method = "PUT" ∨ method = "PATCH" then
                  [("Content-Type", "application/json")] else [])
            body := .raw body }
        (doResp, calls ++ [req])

/-- Modelled from the spec: `SecretField` is declared outside the provided
sources; the spec describes it as slug, filename and item value, the three
fields `uploadFile` reads. -/
structure SecretField where
  Slug : String
  Filename : String
  ItemValue : String

/-- Modelled from the spec: the package-level `resource` constant that
`uploadFile` passes to `urlFor` is declared outside the provided sources;
the spec says uploads target `secrets/{id}/fields/{slug}`, so it is the
string "secrets". -/
def resource : String := "secrets"

/-- Go `\w` of RE2: ASCII letters, digits and underscore. -/
def wordChar (c : Char) : Bool := c.isAlpha || c.isDigit || c = '_'

/-- Whether a whole character list is matched by `[^.]+\.\w+`: the one-plus
non-dot run is dot-free, so the dot of the pattern is the first dot of the
list and the remainder must be a non-empty run of word characters. -/
def extSegMatch (xs : List Char) : Bool :=
  match xs.takeWhile (fun c => c ≠ '.'), xs.dropWhile (fun c => c ≠ '.') with
  | [], _ => false
  | _ :: _, [] => false
  | _ :: _, _ :: w => !w.isEmpty && w.all wordChar

/-- Embedding of Go `regexp.Match("[^.]+\\.\\w+$", []byte(filename))`: the
match may start anywhere but is anchored at the end, so some suffix of the
string is matched by `[^.]+\.\w+` in full. -/
def hasExtensionMatch (s : String) : Bool :=
  s.data.tails.any extSegMatch

/-- The filename adjustment at the top of Go `uploadFile`: an empty
filename becomes "File.txt" and a filename not matched by the extension
regex gets ".txt" appended. -/
def uploadFilename (filename : String) : String :=
  if filename = "" then "File.txt"
  else if hasExtensionMatch filename then filename
  else filename ++ ".txt"

/-- Go `uploadFile`. `boundary` stands for the random multipart boundary
chosen by `multipart.NewWriter`; writes to the backing `bytes.Buffer`
cannot fail, so form construction is total. `tokenResp` and `doResp` are
the oracles as in `getAccessToken` and `accessResource`. -/
def uploadFile (s : Server) (secretId : Int) (fileField : SecretField)
    (boundary : String)
    (tokenResp : Except String (Option Json))
    (doResp : Except String String) :
    Except String Unit × List HttpRequest :=
  let path := toString secretId ++ "/fields/" ++ fileField.Slug
  match getAccessToken s tokenResp with
  | (.error e, calls) => (.error e, calls)
  | (.ok accessToken, calls) =>
    let filename := uploadFilename fileField.Filename
    let req : HttpRequest :=
      { method := "PUT"
        url := urlFor s resource path
        headers :=
          [("Authorization", "Bearer " ++ accessToken),
            ("Content-Type", "multipart/form-data; boundary=" ++ boundary)]
        body := .multipart [⟨"file", filename, fileField.ItemValue⟩] }
    (doResp.map (fun _ => ()), calls ++ [req])

/-- A configuration with only the tenant set, as in the repository's
usage examples. -/
def cfgValid : Configuration :=
  { Credentials := ⟨"", "", "u", "p"⟩, ServerURL := "", TLD := "",
    Tenant := "acme", apiPathURI := "", tokenPathURI := "", LogLevel := 0 }

/-- A cloud configuration for the token-URL example. -/
def cfgAcme : Configuration :=
  { Credentials := ⟨"", "", "u", "p"⟩, ServerURL := "", TLD := "",
    Tenant := "acme", apiPathURI := "", tokenPathURI := "", LogLevel := 0 }

/-- The server of the spec's URL example: serverURL "https://h/" and
apiPath "/api/v1". -/
def cfgHost : Server :=
  { Credentials := ⟨"", "", "", ""⟩, ServerURL := "https://h/", TLD := "",
    Tenant := "", apiPathURI := "/api/v1", tokenPathURI := "/oauth2/token",
    LogLevel := 0 }

/-- A server holding a static access token. -/
def srvStatic : Server :=
  { Credentials := ⟨"tk", "", "", ""⟩, ServerURL := "https://h", TLD := "",
    Tenant := "", apiPathURI := "api/v1", tokenPathURI := "oauth2/token",
    LogLevel := 0 }

/-- A server authenticating with username, password and domain. -/
def srvPw : Server :=
  { Credentials := ⟨"", "dom", "u", "p"⟩, ServerURL := "https://h", TLD := "",
    Tenant := "", apiPathURI := "api/v1", tokenPathURI := "oauth2/token",
    LogLevel := 0 }

/-- A server authenticating with username and password only. -/
def srv9 : Server :=
  { Credentials := ⟨"", "", "u", "p"⟩, ServerURL := "https://h", TLD := "",
    Tenant := "", apiPathURI := "api/v1", tokenPathURI := "oauth2/token",
    LogLevel := 0 }

/-- A token-endpoint body that is a JSON object without an access_token
field but with a mistyped expires_in field. -/
def fields9 : List (String × Json) := [("expires_in", Json.str "x")]

/-- The base URL the spec promises for the token endpoint: the serverURL
when set, otherwise the cloud URL with the TLD defaulting to "com". -/
def tokenBase (c : Configuration) : String :=
  if c.ServerURL = "" then
    cloudBaseURL c.Tenant (if c.TLD = "" then defaultTLD else c.TLD)
  else c.ServerURL

/-- The token path the spec promises: the configured one, defaulting to
"/oauth2/token" when empty. -/
def tokenPath (c : Configuration) : String :=
  if c.tokenPathURI = "" then defaultTokenPathURI else c.tokenPathURI

theorem head?_dropWhile_not_sat (p : Char → Bool) :
    ∀ (l : List Char) (a : Char), (l.dropWhile p).head? = some a → p a = false := by
  intro l
  induction l with
  | nil => intro a h; simp [List.dropWhile] at h
  | cons x xs ih =>
    intro a h
    by_cases hx : p x = true
    · rw [List.dropWhile_cons, if_pos hx] at h
      exact ih a h
    · rw [List.dropWhile_cons, if_neg hx] at h
      simp only [List.head?_cons, Option.some.injEq] at h
      subst h
      simpa using hx

theorem getLast?_dropWhile_of_ne_nil (p : Char → Bool) :
    ∀ l : List Char, l.dropWhile p ≠ [] →
      (l.dropWhile p).getLast? = l.getLast? := by
  intro l
  induction l with
  | nil => intro h; simp [List.dropWhile] at h
  | cons x xs ih =>
    intro h
    by_cases hx : p x = true
    · rw [List.dropWhile_cons, if_pos hx] at h ⊢
      rw [ih h]
      have hxs : xs ≠ [] := by
        intro hn
        rw [hn] at h
        simp [List.dropWhile] at h
      obtain ⟨y, ys, rfl⟩ := List.exists_cons_of_ne_nil hxs
      rfl
    · rw [List.dropWhile_cons, if_neg hx]

theorem dropWhile_eq_self_of_head (p : Char → Bool) (l : List Char)
    (h : ∀ a, l.head? = some a → p a = false) : l.dropWhile p = l := by
  cases l with
  | nil => rfl
  | cons x xs =>
    rw [List.dropWhile_cons, if_neg]
    simp [h x rfl]

theorem trimList_head? (l : List Char) :
    ∀ a, (trimList l).head? = some a → isSlash a = false := by
  intro a h
  unfold trimList at h
  rw [List.head?_reverse] at h
  have hne : (l.dropWhile isSlash).reverse.dropWhile isSlash ≠ [] := by
    intro hn
    rw [hn] at h
    simp at h
  rw [getLast?_dropWhile_of_ne_nil isSlash (l.dropWhile isSlash).reverse hne,
    List.getLast?_reverse] at h
  exact head?_dropWhile_not_sat isSlash l a h

theorem trimList_getLast? (l : List Char) :
    ∀ a, (trimList l).getLast? = some a → isSlash a = false := by
  intro a h
  unfold trimList at h
  rw [List.getLast?_reverse] at h
  exact head?_dropWhile_not_sat isSlash _ a h

theorem trimList_of_trimmed (l : List Char)
    (h1 : ∀ a, l.head? = some a → isSlash a = false)
    (h2 : ∀ a, l.getLast? = some a → isSlash a = false) :
    trimList l = l := by
  unfold trimList
  rw [dropWhile_eq_self_of_head isSlash l h1,
    dropWhile_eq_self_of_head isSlash l.reverse
      (fun a ha => h2 a (by rwa [List.head?_reverse] at ha)),
    List.reverse_reverse]

theorem trimList_idem (l : List Char) : trimList (trimList l) = trimList l :=
  trimList_of_trimmed _ (trimList_head? l) (trimList_getLast? l)

theorem trimSlashes_idem (s : String) :
    trimSlashes (trimSlashes s) = trimSlashes s :=
  congrArg String.mk (trimList_idem s.data)

/-- C1: for every Configuration, New fails with a configuration error
exactly when ServerURL and Tenant are both empty or both non-empty; when
exactly one of them is non-empty, construction succeeds and returns a
Server. -/
theorem New_validation (c : Configuration) :
    ((∃ e, New c = .error e) ↔
      ((c.ServerURL = "" ∧ c.Tenant = "") ∨
        (c.ServerURL ≠ "" ∧ c.Tenant ≠ ""))) ∧
    (((c.ServerURL = "" ∧ c.Tenant ≠ "") ∨
        (c.ServerURL ≠ "" ∧ c.Tenant = "")) → ∃ s, New c = .ok s) := by
  by_cases hP : (c.ServerURL = "" ∧ c.Tenant = "") ∨
      (c.ServerURL ≠ "" ∧ c.Tenant ≠ "")
  · refine ⟨by simp [New, hP], ?_⟩
    intro h
    exfalso
    rcases h with ⟨h1, h2⟩ | ⟨h1, h2⟩ <;>
      rcases hP with ⟨p1, p2⟩ | ⟨p1, p2⟩ <;> tauto
  · refine ⟨by simp [New, hP], ?_⟩
    intro _
    exact ⟨_, by unfold New; rw [if_neg hP]⟩

/-- Witness for C1 at a configuration with only the tenant set. -/
theorem New_validation_witness : ∃ s, New cfgValid = .ok s :=
  (New_validation cfgValid).2 (Or.inl ⟨rfl, by decide⟩)

/-- C2: for every resource name other than "token" and every path, urlFor
returns base, apiPath, resource and path each trimmed of slashes and
joined by single slashes; on the spec's example it yields
"https://h/api/v1/secrets/5/fields/x". -/
theorem urlFor_resource_path (s : Server) (res path : String)
    (h : res ≠ "token") :
    urlFor s res path =
      trimSlashes (baseURLOf s) ++ "/" ++ trimSlashes s.apiPathURI ++ "/" ++
        trimSlashes res ++ "/" ++ trimSlashes path ∧
    urlFor cfgHost "secrets" "5/fields/x" =
      "https://h/api/v1/secrets/5/fields/x" := by
  constructor
  · unfold urlFor
    rw [if_neg h]
  · rfl

/-- Witness for C2 at the spec's example inputs. -/
theorem urlFor_resource_path_witness :
    urlFor cfgHost "secrets" "5/fields/x" =
      "https://h/api/v1/secrets/5/fields/x" :=
  (urlFor_resource_path cfgHost "secrets" "5/fields/x" (by decide)).2

/-- C3: for every configuration accepted by New, urlFor "token" "" is the
trimmed base joined to the trimmed token path by a single slash, and the
trimmed segments neither start nor end in a slash, so no double slash
arises at the join whatever leading or trailing slashes the inputs carry;
the base is the serverURL when set, else the cloud URL with the TLD
defaulting to "com". -/
theorem urlFor_token_join (c : Configuration)
    (h : (c.ServerURL = "" ∧ c.Tenant ≠ "") ∨
      (c.ServerURL ≠ "" ∧ c.Tenant = "")) :
    ∃ s, New c = .ok s ∧
      urlFor s "token" "" =
        trimSlashes (tokenBase c) ++ "/" ++ trimSlashes (tokenPath c) ∧
      (∀ a, (trimSlashes (tokenBase c)).data.getLast? = some a → a ≠ '/') ∧
      (∀ a, (trimSlashes (tokenPath c)).data.head? = some a → a ≠ '/') ∧
      (∀ a, (trimSlashes (tokenPath c)).data.getLast? = some a → a ≠ '/') := by
  have hP : ¬ ((c.ServerURL = "" ∧ c.Tenant = "") ∨
      (c.ServerURL ≠ "" ∧ c.Tenant ≠ "")) := by
    rcases h with ⟨h1, h2⟩ | ⟨h1, h2⟩ <;> simp [h1, h2]
  refine ⟨_, by unfold New; rw [if_neg hP], ?_, ?_, ?_, ?_⟩
  · show urlFor
        { c with
          TLD := if c.TLD = "" then defaultTLD else c.TLD,
          apiPathURI := trimSlashes (if c.apiPathURI = "" then
            defaultAPIPathURI else c.apiPathURI),
          tokenPathURI := trimSlashes (if c.tokenPathURI = "" then
            defaultTokenPathURI else c.tokenPathURI) } "token" "" = _
    unfold urlFor baseURLOf tokenBase tokenPath
    rw [if_pos rfl]
    show trimSlashes (if c.ServerURL = "" then
        cloudBaseURL c.Tenant (if c.TLD = "" then defaultTLD else c.TLD)
      else c.ServerURL) ++ "/" ++
        trimSlashes (trimSlashes (if c.tokenPathURI = "" then
          defaultTokenPathURI else c.tokenPathURI)) = _
    rw [trimSlashes_idem]
  · intro a ha
    have := trimList_getLast? (tokenBase c).data a ha
    simpa [isSlash] using this
  · intro a ha
    have := trimList_head? (tokenPath c).data a ha
    simpa [isSlash] using this
  · intro a ha
    have := trimList_getLast? (tokenPath c).data a ha
    simpa [isSlash] using this

/-- Witness for C3 at the cloud configuration with tenant "acme". -/
theorem urlFor_token_join_witness :
    ∃ s, New cfgAcme = .ok s ∧
      urlFor s "token" "" =
        trimSlashes (tokenBase cfgAcme) ++ "/" ++
          trimSlashes (tokenPath cfgAcme) ∧
      (∀ a, (trimSlashes (tokenBase cfgAcme)).data.getLast? = some a →
        a ≠ '/') ∧
      (∀ a, (trimSlashes (tokenPath cfgAcme)).data.head? = some a →
        a ≠ '/') ∧
      (∀ a, (trimSlashes (tokenPath cfgAcme)).data.getLast? = some a →
        a ≠ '/') :=
  urlFor_token_join cfgAcme (Or.inl ⟨rfl, by decide⟩)

/-- C4: accessResource with a resource name outside the two known ones
fails with the "unknown resource" error and issues no HTTP request at all,
in particular no token-endpoint request. -/
theorem accessResource_unknown_resource (s : Server)
    (method res path : String) (input : Option (Except String String))
    (tokenResp : Except String (Option Json)) (doResp : Except String String)
    (h1 : res ≠ "secrets") (h2 : res ≠ "secret-templates") :
    accessResource s method res path input tokenResp doResp =
      (.error "unknown resource", []) := by
  have hc : ¬ (res = "secrets" ∨ res = "secret-templates") := by
    simp [h1, h2]
  unfold accessResource
  rw [if_pos hc]

/-- Witness for C4 at the resource name "unknown-thing". -/
theorem accessResource_unknown_resource_witness :
    accessResource srvPw "GET" "unknown-thing" "1" none (.error "") (.ok "") =
      (.error "unknown resource", []) :=
  accessResource_unknown_resource srvPw "GET" "unknown-thing" "1" none
    (.error "") (.ok "") (by decide) (by decide)

/-- C5: with a non-empty static AccessToken, getAccessToken returns that
token unchanged and issues no HTTP request, whatever the other credential
fields and the token endpoint would do. -/
theorem getAccessToken_static_token (s : Server)
    (tokenResp : Except String (Option Json))
    (h : s.Credentials.AccessToken ≠ "") :
    getAccessToken s tokenResp = (.ok s.Credentials.AccessToken, []) := by
  unfold getAccessToken
  rw [if_pos h]

/-- Witness for C5 at a server holding the static token "tk". -/
theorem getAccessToken_static_token_witness :
    getAccessToken srvStatic (.error "net down") = (.ok "tk", []) :=
  getAccessToken_static_token srvStatic (.error "net down") (by decide)

/-- C6: without a static access token, getAccessToken fails exactly when
the token POST fails or its body does not unmarshal as a grant; the single
request issued carries a form body with username, password and
grant_type=password always, and domain exactly when the credential's
domain is non-empty. -/
theorem getAccessToken_password_grant (s : Server)
    (tokenResp : Except String (Option Json))
    (h : s.Credentials.AccessToken = "") :
    ((∃ e, (getAccessToken s tokenResp).1 = .error e) ↔
      ((∃ e, tokenResp = .error e) ∨
        (∃ b e, tokenResp = .ok b ∧ unmarshalGrant b = .error e))) ∧
    (getAccessToken s tokenResp).2 = [tokenRequest s] ∧
    (tokenRequest s).body = .form (grantFormValues s.Credentials) ∧
    ("username", s.Credentials.Username) ∈ grantFormValues s.Credentials ∧
    ("password", s.Credentials.Password) ∈ grantFormValues s.Credentials ∧
    ("grant_type", "password") ∈ grantFormValues s.Credentials ∧
    (∀ v, ("domain", v) ∈ grantFormValues s.Credentials ↔
      (s.Credentials.Domain ≠ "" ∧ v = s.Credentials.Domain)) := by
  have hif : ¬ (s.Credentials.AccessToken ≠ "") := by simp [h]
  refine ⟨?_, ?_, rfl, ?_, ?_, ?_, ?_⟩
  · unfold getAccessToken
    rw [if_neg hif]
    rcases tokenResp with e | b
    · simp
    · rcases hg : unmarshalGrant b with e | g <;> simp [hg]
  · unfold getAccessToken
    rw [if_neg hif]
    rcases tokenResp with e | b
    · rfl
    · rcases hg : unmarshalGrant b with e | g <;> simp [hg]
  · simp [grantFormValues]
  · simp [grantFormValues]
  · simp [grantFormValues]
  · intro v
    by_cases hd : s.Credentials.Domain = "" <;> simp [grantFormValues, hd]

/-- Witness for C6 at a server with username, password and domain set. -/
theorem getAccessToken_password_grant_witness :
    (getAccessToken srvPw (.ok (some Json.null))).2 = [tokenRequest srvPw] ∧
    ("username", "u") ∈ grantFormValues srvPw.Credentials ∧
    ("domain", "dom") ∈ grantFormValues srvPw.Credentials := by
  refine ⟨(getAccessToken_password_grant srvPw (.ok (some Json.null))
      rfl).2.1, ?_, ?_⟩
  · exact (getAccessToken_password_grant srvPw (.ok (some Json.null))
      rfl).2.2.2.1
  · exact ((getAccessToken_password_grant srvPw (.ok (some Json.null))
      rfl).2.2.2.2.2.2 "dom").2 ⟨by decide, rfl⟩

/-- C7: in uploadFile the empty filename becomes "File.txt", a filename
not matched by the extension regex gets ".txt" appended (so "foo" becomes
"foo.txt"), and a filename matched by it (such as "foo.bin") is left
unchanged. -/
theorem uploadFilename_spec (f : String) :
    uploadFilename "" = "File.txt" ∧
    (f ≠ "" → hasExtensionMatch f = false → uploadFilename f = f ++ ".txt") ∧
    (f ≠ "" → hasExtensionMatch f = true → uploadFilename f = f) ∧
    uploadFilename "foo" = "foo.txt" ∧
    uploadFilename "foo.bin" = "foo.bin" := by
  refine ⟨rfl, ?_, ?_, ?_, ?_⟩
  · intro h1 h2
    unfold uploadFilename
    rw [if_neg h1, if_neg (by simp [h2])]
  · intro h1 h2
    unfold uploadFilename
    rw [if_neg h1, if_pos h2]
  · rfl
  · rfl

/-- Witness for C7 at the filenames of the spec's examples. -/
theorem uploadFilename_spec_witness :
    uploadFilename "" = "File.txt" ∧ uploadFilename "foo" = "foo.txt" ∧
      uploadFilename "foo.bin" = "foo.bin" :=
  ⟨(uploadFilename_spec "foo").1,
    (uploadFilename_spec "foo").2.1 (by decide) (by decide),
    (uploadFilename_spec "foo").2.2.2.2⟩

/-- C8: once the access token is obtained, uploadFile issues exactly one
further request: a PUT to secrets/{id}/fields/{slug} under the API path,
whose body is a multipart form with a single file part named "file"
holding the field's item value, with a bearer Authorization header, the
multipart content type as the only Content-Type, and no JSON content
type. -/
theorem uploadFile_request (s : Server) (secretId : Int)
    (fileField : SecretField) (boundary tok : String)
    (calls : List HttpRequest) (tokenResp : Except String (Option Json))
    (doResp : Except String String)
    (h : getAccessToken s tokenResp = (.ok tok, calls)) :
    ∃ req,
      uploadFile s secretId fileField boundary tokenResp doResp =
        (doResp.map (fun _ => ()), calls ++ [req]) ∧
      req.method = "PUT" ∧
      req.url = urlFor s "secrets"
        (toString secretId ++ "/fields/" ++ fileField.Slug) ∧
      req.body = .multipart
        [⟨"file", uploadFilename fileField.Filename, fileField.ItemValue⟩] ∧
      ("Authorization", "Bearer " ++ tok) ∈ req.headers ∧
      ("Content-Type", "multipart/form-data; boundary=" ++ boundary) ∈
        req.headers ∧
      (∀ v, ("Content-Type", v) ∈ req.headers →
        v = "multipart/form-data; boundary=" ++ boundary) ∧
      ("Content-Type", "application/json") ∉ req.headers := by
  refine ⟨{ method := "PUT",
            url := urlFor s resource
              (toString secretId ++ "/fields/" ++ fileField.Slug),
            headers := [("Authorization", "Bearer " ++ tok),
              ("Content-Type", "multipart/form-data; boundary=" ++ boundary)],
            body := .multipart
              [⟨"file", uploadFilename fileField.Filename,
                fileField.ItemValue⟩] }, ?_, rfl, rfl, rfl, ?_, ?_, ?_, ?_⟩
  · unfold uploadFile
    rw [h]
  · simp
  · simp
  · intro v hv
    rw [List.mem_cons, List.mem_cons] at hv
    rcases hv with hv | hv | hv
    · have hk : "Content-Type" = "Authorization" := congrArg Prod.fst hv
      exact absurd hk (by decide)
    · exact congrArg Prod.snd hv
    · exact absurd hv (List.not_mem_nil _)
  · intro hmem
    rw [List.mem_cons, List.mem_cons] at hmem
    rcases hmem with hv | hv | hv
    · have hk : "Content-Type" = "Authorization" := congrArg Prod.fst hv
      exact absurd hk (by decide)
    · have hw : "application/json" =
          "multipart/form-data; boundary=" ++ boundary :=
        congrArg Prod.snd hv
      have hlen := congrArg String.length hw
      rw [String.length_append] at hlen
      have h16 : ("application/json" : String).length = 16 := by decide
      have h30 :
          ("multipart/form-data; boundary=" : String).length = 30 := by decide
      rw [h16, h30] at hlen
      omega
    · exact absurd hv (List.not_mem_nil _)

/-- Witness for C8 at a server holding a static token, so token
acquisition issues no request of its own. -/
theorem uploadFile_request_witness :
    ∃ req,
      uploadFile srvStatic 5 ⟨"slug", "foo.bin", "data"⟩ "b0"
          (.error "unused") (.ok "") =
        ((Except.ok "").map (fun _ => ()), [] ++ [req]) ∧
      req.method = "PUT" ∧
      req.url = urlFor srvStatic "secrets"
        (toString (5 : Int) ++ "/fields/" ++ "slug") ∧
      req.body = .multipart [⟨"file", uploadFilename "foo.bin", "data"⟩] ∧
      ("Authorization", "Bearer " ++ "tk") ∈ req.headers ∧
      ("Content-Type", "multipart/form-data; boundary=" ++ "b0") ∈
        req.headers ∧
      (∀ v, ("Content-Type", v) ∈ req.headers →
        v = "multipart/form-data; boundary=" ++ "b0") ∧
      ("Content-Type", "application/json") ∉ req.headers :=
  uploadFile_request srvStatic 5 ⟨"slug", "foo.bin", "data"⟩ "b0" "tk" []
    (.error "unused") (.ok "") rfl

/-- C9 counterexample: the token endpoint answers with the syntactically
valid JSON object of fields9, which contains no access_token field, yet
getAccessToken returns an unmarshalling error rather than the empty token
with no error, because the mistyped expires_in field fails to decode. -/
theorem getAccessToken_missing_token_counterexample :
    srv9.Credentials.AccessToken = "" ∧
    lookupField fields9 "access_token" = none ∧
    (∃ e, (getAccessToken srv9 (.ok (some (Json.obj fields9)))).1 =
      .error e) ∧
    (getAccessToken srv9 (.ok (some (Json.obj fields9)))).1 ≠ .ok "" := by
  refine ⟨rfl, rfl, ⟨"cannot unmarshal JSON value into int field expires_in",
    rfl⟩, ?_⟩
  intro hc
  rw [show (getAccessToken srv9 (.ok (some (Json.obj fields9)))).1 =
      Except.error "cannot unmarshal JSON value into int field expires_in"
    from rfl] at hc
  cases hc

/-- C9 amended: for every token-endpoint response whose body is a JSON
object that unmarshals into the grant without error and contains no
access_token field, getAccessToken returns the empty string with no
error, and a subsequent accessResource call sends an Authorization header
of "Bearer " with the empty token rather than failing. -/
theorem getAccessToken_missing_token_amended (s : Server)
    (fields : List (String × Json)) (g : Grant)
    (method path : String) (doResp : Except String String)
    (h0 : s.Credentials.AccessToken = "")
    (h1 : lookupField fields "access_token" = none)
    (h2 : unmarshalGrant (some (Json.obj fields)) = .ok g) :
    getAccessToken s (.ok (some (Json.obj fields))) =
      (.ok "", [tokenRequest s]) ∧
    ∃ req,
      accessResource s method "secrets" path none
          (.ok (some (Json.obj fields))) doResp =
        (doResp, [tokenRequest s, req]) ∧
      ("Authorization", "Bearer ") ∈ req.headers := by
  have hga : unmarshalGrant (some (Json.obj fields)) = .ok ⟨"",
      g.RefreshToken, g.TokenType, g.ExpiresIn⟩ := by
    have ha : decodeStringField fields "access_token" = .ok "" := by
      unfold decodeStringField
      rw [h1]
    have hm : unmarshalGrant (some (Json.obj fields)) =
        (match decodeStringField fields "access_token",
            decodeStringField fields "refresh_token",
            decodeStringField fields "token_type",
            decodeIntField fields "expires_in" with
          | .ok a, .ok r, .ok t, .ok e =>
            (Except.ok ⟨a, r, t, e⟩ : Except String Grant)
          | .error e, _, _, _ => .error e
          | _, .error e, _, _ => .error e
          | _, _, .error e, _ => .error e
          | _, _, _, .error e => .error e) := rfl
    rw [hm] at h2 ⊢
    rw [ha] at h2 ⊢
    rcases hr : decodeStringField fields "refresh_token" with e1 | r <;>
      rcases ht : decodeStringField fields "token_type" with e2 | t <;>
      rcases he : decodeIntField fields "expires_in" with e3 | x <;>
      (simp_all; try rw [← h2])
  have hget : getAccessToken s (.ok (some (Json.obj fields))) =
      (.ok "", [tokenRequest s]) := by
    unfold getAccessToken
    rw [if_neg (by simp [h0])]
    show (match unmarshalGrant (some (Json.obj fields)) with
      | .error e => ((.error e : Except String String), [tokenRequest s])
      | .ok grant => (.ok grant.AccessToken, [tokenRequest s])) = _
    rw [hga]
  refine ⟨hget, ⟨{ method := method,
                   url := urlFor s "secrets" path,
                   headers := ("Authorization", "Bearer " ++ "") ::
                     (if method = "POST" ∨ method = "PUT" ∨
                         method = "PATCH" then
                       [("Content-Type", "application/json")] else []),
                   body := .raw "" }, ?_, ?_⟩⟩
  · unfold accessResource
    rw [if_neg (by simp)]
    rw [hget]
    rfl
  · have : ("Bearer " : String) ++ "" = "Bearer " := String.append_empty _
    rw [this]
    exact List.mem_cons_self _ _

/-- Witness for the amended C9 at the empty JSON object. -/
theorem getAccessToken_missing_token_amended_witness :
    getAccessToken srv9 (.ok (some (Json.obj []))) =
      (.ok "", [tokenRequest srv9]) ∧
    ∃ req,
      accessResource srv9 "GET" "secrets" "1" none
          (.ok (some (Json.obj []))) (.ok "") =
        (.ok "", [tokenRequest srv9, req]) ∧
      ("Authorization", "Bearer ") ∈ req.headers :=
  getAccessToken_missing_token_amended srv9 [] ⟨"", "", "", 0⟩ "GET" "1"
    (.ok "") rfl rfl rfl

/-- C10: for a known resource and a payload whose JSON serialization
fails, accessResource returns that error and issues no HTTP request, so
neither the token endpoint nor the resource endpoint is contacted. -/
theorem accessResource_marshal_error (s : Server) (method res path e : String)
    (tokenResp : Except String (Option Json)) (doResp : Except String String)
    (h : res = "secrets" ∨ res = "secret-templates") :
    accessResource s method res path (some (.error e)) tokenResp doResp =
      (.error e, []) := by
  unfold accessResource
  rw [if_neg (not_not_intro h)]

/-- Witness for C10 at the resource "secrets" and a failing payload. -/
theorem accessResource_marshal_error_witness :
    accessResource srvPw "POST" "secrets" "1" (some (.error "cycle"))
      (.error "unused") (.ok "") = (.error "cycle", []) :=
  accessResource_marshal_error srvPw "POST" "secrets" "1" "cycle"
    (.error "unused") (.ok "") (Or.inl rfl)

end TssSdk
